import Mathlib

/-!
Shallow embedding of the `indietool/cli` encrypted secret storage engine
(package `indietool/secrets`: `manager.go`, `storage.go`, `encryption.go`,
`types.go`).

Modelling decisions:
* The external state (OS keyring entries and the per-database BadgerDB
  directories) is an explicit `World` value threaded through every operation.
  Maps are association lists keyed by strings, looked up by first match.
* An age X25519 identity is a `Nat`; its public recipient is derived by an
  (injective) function, modelled as the identity function.  A ciphertext is
  self-describing: it records the recipient it was encrypted to and the
  plaintext payload, and decryption succeeds exactly when the recipient of
  the stored identity matches — or fails on `garbage` bytes, modelling
  corrupted stored records.
* A plaintext is either the `json.Marshal` encoding of a `Secret` (which for
  this struct cannot fail, so marshalling is total) or `junk` bytes on which
  `json.Unmarshal` into a `Secret` fails.
* `time.Now()` is an explicit `now : Nat` argument.
* Disk and keyring I/O themselves are assumed available (the code treats them
  as available-or-not with no transient class); the errors modelled are the
  ones the engine itself produces: database/record/key not found, decryption
  and unmarshalling failures.
* Operations that mutate state return `World × Option SecretsError` (Go's
  `error` result next to the mutated external state); read-only operations
  return `Except SecretsError α`.
-/

namespace Indietool

/-- Structure `Secret` from `types.go`: a stored secret with metadata. -/
structure Secret where
  name : String
  value : String
  note : String
  createdAt : Nat
  updatedAt : Nat
  expiresAt : Option Nat
deriving DecidableEq

/-- Structure `SecretListItem` from `types.go`: list view without the value. -/
structure SecretListItem where
  name : String
  note : String
  createdAt : Nat
  updatedAt : Nat
  expiresAt : Option Nat
  expired : Bool
deriving DecidableEq

/-- Structure `Config` from `types.go`. -/
structure Config where
  defaultDatabase : String
  storageDir : String
  clipboardTTL : Nat
  maskOutput : Bool
deriving DecidableEq

/-- Method `Config.GetDefaultDatabase` from `manager.go`. -/
def Config.getDefaultDatabase (c : Config) : String :=
  if c.defaultDatabase ≠ "" then c.defaultDatabase else "default"

/-- Plaintext bytes handed to the encryptor: either the JSON encoding of a
`Secret` produced by `json.Marshal`, or bytes that do not unmarshal into a
`Secret`. -/
inductive Plaintext where
  | secretJson (s : Secret)
  | junk (bytes : Nat)
deriving DecidableEq

/-- Bytes stored in a database record: a self-describing age ciphertext
addressed to a recipient, or corrupted bytes that no identity decrypts. -/
inductive Blob where
  | cipher (recipient : Nat) (payload : Plaintext)
  | garbage (bytes : Nat)
deriving DecidableEq

/-- Error taxonomy of the engine (the distinct `error` values the Go code
produces on these paths). -/
inductive SecretsError where
  | databaseNotFound (database : String)
  | recordNotFound (key database : String)
  | keyNotFound (database : String)
  | decryptionError (database : String)
  | unmarshalError
deriving DecidableEq

/-- External state: the OS keyring (account name ↦ stored identity, all under
the constant service `indietool-secrets`) and the secrets directory (database
name ↦ its BadgerDB record contents). -/
structure World where
  keyring : List (String × Nat)
  dirs : List (String × List (String × Blob))
deriving DecidableEq

/-- First-match association-list lookup. -/
def lookupA {α : Type} : List (String × α) → String → Option α
  | [], _ => none
  | (k, v) :: rest, key => if k = key then some v else lookupA rest key

/-- Association-list upsert (replaces the first binding of the key, appends
if absent). -/
def setA {α : Type} : List (String × α) → String → α → List (String × α)
  | [], key, v => [(key, v)]
  | (k, w) :: rest, key, v =>
      if k = key then (key, v) :: rest else (k, w) :: setA rest key v

/-- Association-list removal of every binding of the key. -/
def removeA {α : Type} : List (String × α) → String → List (String × α)
  | [], _ => []
  | (k, w) :: rest, key =>
      if k = key then removeA rest key else (k, w) :: removeA rest key

/-- The account name `fmt.Sprintf("db-key-%s", database)` from `encryption.go`. -/
def keyName (database : String) : String := "db-key-" ++ database

/-- Derivation of the public recipient from an X25519 identity
(`identity.Recipient()`); injective, modelled as the identity function. -/
def recipientOf (identity : Nat) : Nat := identity

/-- Method `Encryptor.getIdentity`: `keyring.Get` for the database's account, failing
with the key-not-found error ("run 'indietool secrets init' first"). -/
def getIdentity (w : World) (database : String) : Except SecretsError Nat :=
  match lookupA w.keyring (keyName database) with
  | some identity => .ok identity
  | none => .error (.keyNotFound database)

/-- Method `Encryptor.Encrypt`: resolve the identity, encrypt to its recipient. -/
def encrypt (w : World) (data : Plaintext) (database : String) :
    Except SecretsError Blob :=
  match getIdentity w database with
  | .error e => .error e
  | .ok identity => .ok (Blob.cipher (recipientOf identity) data)

/-- Method `Encryptor.Decrypt`: resolve the identity, decrypt; corrupt or foreign
ciphertext fails. -/
def decrypt (w : World) (data : Blob) (database : String) :
    Except SecretsError Plaintext :=
  match getIdentity w database with
  | .error e => .error e
  | .ok identity =>
    match data with
    | Blob.cipher r payload =>
        if r = recipientOf identity then .ok payload
        else .error (.decryptionError database)
    | Blob.garbage _ => .error (.decryptionError database)

/-- Method `Encryptor.InitializeKey`: generate (or import — `newIdentity` is the
generated-or-parsed identity) a keypair and store it in the keyring with
`keyring.Set`, unconditionally. -/
def initializeKey (w : World) (database : String) (newIdentity : Nat) :
    World × Option SecretsError :=
  ({ w with keyring := setA w.keyring (keyName database) newIdentity }, none)

/-- Method `Storage.Set`: opens read-write (BadgerDB auto-creates the directory),
upserts, commits. -/
def storageSet (w : World) (database key : String) (value : Blob) : World :=
  let records := (lookupA w.dirs database).getD []
  { w with dirs := setA w.dirs database (setA records key value) }

/-- Method `Storage.Get`: read-only open fails with `ErrSecretDBNotFound` when the
directory is absent; a missing key is "secret not found in database". -/
def storageGet (w : World) (database key : String) : Except SecretsError Blob :=
  match lookupA w.dirs database with
  | none => .error (.databaseNotFound database)
  | some records =>
    match lookupA records key with
    | none => .error (.recordNotFound key database)
    | some v => .ok v

/-- Method `Storage.List`: read-only open, then all keys of the database. -/
def storageList (w : World) (database : String) :
    Except SecretsError (List String) :=
  match lookupA w.dirs database with
  | none => .error (.databaseNotFound database)
  | some records => .ok (records.map Prod.fst)

/-- Method `Storage.Delete`: opens read-write (auto-creating the directory) and
removes the key; absence of the key is not an error. -/
def storageDelete (w : World) (database key : String) : World :=
  let records := (lookupA w.dirs database).getD []
  { w with dirs := setA w.dirs database (removeA records key) }

/-- Predicate `strings.HasPrefix(name, ".")` from `storage.go`: whether the name starts
with a dot (stated on the character list so that it evaluates). -/
def hasPrefixDot (name : String) : Bool :=
  match name.data with
  | [] => false
  | c :: _ => c = '.'

/-- Method `Storage.ListDatabases`: the non-hidden subdirectories of the root. -/
def storageListDatabases (w : World) : List String :=
  (w.dirs.map Prod.fst).filter (fun name => ! hasPrefixDot name)

/-- Method `Storage.DeleteDatabase`: `os.RemoveAll` of the database directory. -/
def storageDeleteDatabase (w : World) (database : String) : World :=
  { w with dirs := removeA w.dirs database }

/-- Serialization `json.Marshal` of a `Secret` (total for this struct). -/
def marshalSecret (s : Secret) : Plaintext := Plaintext.secretJson s

/-- Deserialization `json.Unmarshal` into a `Secret`. -/
def unmarshalSecret : Plaintext → Except SecretsError Secret
  | Plaintext.secretJson s => .ok s
  | Plaintext.junk _ => .error .unmarshalError

/-- The `if database == "" { database = m.config.GetDefaultDatabase() }`
prelude shared by the Manager operations. -/
def resolveDatabase (cfg : Config) (database : String) : String :=
  if database = "" then cfg.getDefaultDatabase else database

/-- Method `Manager.GetSecret`: storage get, decrypt, unmarshal. -/
def getSecret (cfg : Config) (w : World) (name database : String) :
    Except SecretsError Secret :=
  let database := resolveDatabase cfg database
  match storageGet w database name with
  | .error e => .error e
  | .ok encrypted =>
    match decrypt w encrypted database with
    | .error e => .error e
    | .ok data => unmarshalSecret data

/-- The `createdAt` chosen by `Manager.SetSecret`: the existing secret's
creation time when the read succeeds, the current time otherwise. -/
def nextCreatedAt (cfg : Config) (w : World) (name database : String)
    (now : Nat) : Nat :=
  match getSecret cfg w name database with
  | .ok existing => existing.createdAt
  | .error _ => now

/-- Method `Manager.SetSecret`: resolve database, preserve creation time, build the
secret, marshal, encrypt, store. -/
def setSecret (cfg : Config) (w : World) (name value database note : String)
    (expiresAt : Option Nat) (now : Nat) : World × Option SecretsError :=
  let database := resolveDatabase cfg database
  let createdAt := nextCreatedAt cfg w name database now
  let secret : Secret :=
    { name := name, value := value, note := note, createdAt := createdAt,
      updatedAt := now, expiresAt := expiresAt }
  let data := marshalSecret secret
  match encrypt w data database with
  | .error e => (w, some e)
  | .ok encrypted => (storageSet w database name encrypted, none)

/-- Method `Secret.IsExpired` from `types.go`: `ExpiresAt != nil && now.After(*ExpiresAt)`. -/
def isExpired (s : Secret) (now : Nat) : Bool :=
  match s.expiresAt with
  | some t => decide (t < now)
  | none => false

/-- Method `Secret.ToListItem` from `types.go`. -/
def toListItem (s : Secret) (now : Nat) : SecretListItem :=
  { name := s.name, note := s.note, createdAt := s.createdAt,
    updatedAt := s.updatedAt, expiresAt := s.expiresAt,
    expired := isExpired s now }

/-- Method `Manager.ListSecrets`: list the keys, get each secret, skip the ones that
fail, project to list items. -/
def listSecrets (cfg : Config) (w : World) (database : String) (now : Nat) :
    Except SecretsError (List SecretListItem) :=
  let database := resolveDatabase cfg database
  match storageList w database with
  | .error e => .error e
  | .ok keys =>
    .ok (keys.filterMap (fun key =>
      match getSecret cfg w key database with
      | .ok secret => some (toListItem secret now)
      | .error _ => none))

/-- Method `Manager.DeleteSecret`: resolve database, storage delete. -/
def deleteSecret (cfg : Config) (w : World) (name database : String) :
    World × Option SecretsError :=
  let database := resolveDatabase cfg database
  (storageDelete w database name, none)

/-- Method `Manager.ListDatabases`: pass-through. -/
def listDatabases (w : World) : List String := storageListDatabases w

/-- Method `Manager.DeleteDatabase`: pass-through. -/
def deleteDatabase (w : World) (database : String) :
    World × Option SecretsError :=
  (storageDeleteDatabase w database, none)

/-- Method `Manager.InitDatabase`: delegates to `Encryptor.InitializeKey`. -/
def initDatabase (w : World) (database : String) (newIdentity : Nat) :
    World × Option SecretsError :=
  initializeKey w database newIdentity

/-- Modelled from the spec: `Manager.HasDatabaseKey` is called by the CLI
(`cmd/secrets_init.go`) but its definition is not among the provided sources;
the spec describes `HasKey(database)` as a "non-failing existence probe" for
the per-database credential-store entry. -/
def hasDatabaseKey (w : World) (database : String) : Bool :=
  (lookupA w.keyring (keyName database)).isSome

/-- What a stored blob decrypts-then-unmarshals to under a database's key, as
an `Option`: `some` exactly on the records `Manager.GetSecret` would succeed
on once the storage lookup has returned the blob.  Used to state which records
of a database are the "valid" ones. -/
def decryptsTo (w : World) (database : String) (blob : Blob) : Option Secret :=
  match decrypt w blob database with
  | .error _ => none
  | .ok data =>
    match unmarshalSecret data with
    | .error _ => none
    | .ok s => some s

/-- Outcome of the CLI `secrets init` command. -/
inductive InitOutcome where
  | refusedExistingKey
  | initialized
deriving DecidableEq

/-- Function `initSecrets` from `cmd/secrets_init.go`: resolve the default database,
refuse when a key already exists, otherwise initialize. -/
def cliInitSecrets (cfg : Config) (w : World) (newIdentity : Nat) :
    World × InitOutcome :=
  let database := cfg.getDefaultDatabase
  if hasDatabaseKey w database then (w, InitOutcome.refusedExistingKey)
  else ((initDatabase w database newIdentity).1, InitOutcome.initialized)

deriving instance DecidableEq for Except

/-! ### Association-list lemmas -/

@[simp]
theorem lookupA_setA_self {α : Type} (l : List (String × α)) (k : String) (v : α) :
    lookupA (setA l k v) k = some v := by
  induction l with
  | nil => simp [setA, lookupA]
  | cons p rest ih =>
    obtain ⟨k', v'⟩ := p
    by_cases h : k' = k
    · simp [setA, h, lookupA]
    · simp [setA, h, lookupA, ih]

theorem lookupA_setA_ne {α : Type} (l : List (String × α)) (k k' : String) (v : α)
    (h : k ≠ k') : lookupA (setA l k v) k' = lookupA l k' := by
  induction l with
  | nil => simp [setA, lookupA, h]
  | cons p rest ih =>
    obtain ⟨k₀, v₀⟩ := p
    by_cases h₀ : k₀ = k
    · simp [setA, h₀, lookupA, h]
    · simp only [setA, h₀, if_false, lookupA]
      by_cases h₁ : k₀ = k'
      · simp [h₁]
      · simp [h₁, ih]

@[simp]
theorem lookupA_removeA_self {α : Type} (l : List (String × α)) (k : String) :
    lookupA (removeA l k) k = none := by
  induction l with
  | nil => simp [removeA, lookupA]
  | cons p rest ih =>
    obtain ⟨k₀, v₀⟩ := p
    by_cases h : k₀ = k
    · simp [removeA, h, ih]
    · simp [removeA, h, lookupA, ih]

theorem lookupA_removeA_ne {α : Type} (l : List (String × α)) (k k' : String)
    (h : k ≠ k') : lookupA (removeA l k) k' = lookupA l k' := by
  induction l with
  | nil => simp [removeA]
  | cons p rest ih =>
    obtain ⟨k₀, v₀⟩ := p
    by_cases h₀ : k₀ = k
    · have hk' : k₀ ≠ k' := h₀ ▸ h
      simp [removeA, h₀, lookupA, hk', ih, h]
    · simp only [removeA, h₀, if_false, lookupA]
      by_cases h₁ : k₀ = k'
      · simp [h₁]
      · simp [h₁, ih]

theorem mem_map_fst_setA {α : Type} (l : List (String × α)) (k : String) (v : α) :
    k ∈ (setA l k v).map Prod.fst := by
  induction l with
  | nil => simp [setA]
  | cons p rest ih =>
    obtain ⟨k₀, v₀⟩ := p
    by_cases h : k₀ = k
    · simp [setA, h]
    · simp only [setA, h, if_false, List.map_cons, List.mem_cons]
      exact Or.inr ih

theorem not_mem_map_fst_removeA {α : Type} (l : List (String × α)) (k : String) :
    k ∉ (removeA l k).map Prod.fst := by
  induction l with
  | nil => simp [removeA]
  | cons p rest ih =>
    obtain ⟨k₀, v₀⟩ := p
    by_cases h : k₀ = k
    · simp [removeA, h, ih]
    · simp only [removeA, h, if_false, List.map_cons, List.mem_cons]
      rintro (rfl | hmem)
      · exact h rfl
      · exact ih hmem

/-! ### Database-name resolution lemmas -/

theorem getDefaultDatabase_ne_empty (cfg : Config) :
    cfg.getDefaultDatabase ≠ "" := by
  unfold Config.getDefaultDatabase
  by_cases h : cfg.defaultDatabase ≠ ""
  · rw [if_pos h]
    exact h
  · rw [if_neg h]
    decide

theorem resolveDatabase_idem (cfg : Config) (d : String) :
    resolveDatabase cfg (resolveDatabase cfg d) = resolveDatabase cfg d := by
  unfold resolveDatabase
  by_cases h : d = ""
  · simp [h, getDefaultDatabase_ne_empty]
  · simp [h]

theorem resolveDatabase_of_ne (cfg : Config) (d : String) (h : d ≠ "") :
    resolveDatabase cfg d = d := by
  simp [resolveDatabase, h]

theorem getSecret_resolve (cfg : Config) (w : World) (name d : String) :
    getSecret cfg w name (resolveDatabase cfg d) = getSecret cfg w name d := by
  simp [getSecret, resolveDatabase_idem]

theorem setSecret_resolve (cfg : Config) (w : World) (name value d note : String)
    (expiresAt : Option Nat) (now : Nat) :
    setSecret cfg w name value (resolveDatabase cfg d) note expiresAt now
      = setSecret cfg w name value d note expiresAt now := by
  simp [setSecret, resolveDatabase_idem]

theorem listSecrets_resolve (cfg : Config) (w : World) (d : String) (now : Nat) :
    listSecrets cfg w (resolveDatabase cfg d) now = listSecrets cfg w d now := by
  simp [listSecrets, resolveDatabase_idem]

theorem deleteSecret_resolve (cfg : Config) (w : World) (name d : String) :
    deleteSecret cfg w name (resolveDatabase cfg d) = deleteSecret cfg w name d := by
  simp [deleteSecret, resolveDatabase_idem]

/-! ### Frame and success/failure helpers -/

@[simp]
theorem storageSet_keyring (w : World) (database key : String) (value : Blob) :
    (storageSet w database key value).keyring = w.keyring := rfl

theorem setSecret_ok (cfg : Config) (w : World)
    (name value database note : String) (expiresAt : Option Nat) (now : Nat)
    (identity : Nat)
    (hkey : lookupA w.keyring (keyName (resolveDatabase cfg database)) = some identity) :
    setSecret cfg w name value database note expiresAt now =
      (storageSet w (resolveDatabase cfg database) name
        (Blob.cipher (recipientOf identity)
          (Plaintext.secretJson
            { name := name, value := value, note := note,
              createdAt := nextCreatedAt cfg w name (resolveDatabase cfg database) now,
              updatedAt := now, expiresAt := expiresAt })), none) := by
  simp [setSecret, encrypt, getIdentity, hkey, marshalSecret]

theorem setSecret_err (cfg : Config) (w : World)
    (name value database note : String) (expiresAt : Option Nat) (now : Nat)
    (hnone : lookupA w.keyring (keyName (resolveDatabase cfg database)) = none) :
    setSecret cfg w name value database note expiresAt now
      = (w, some (.keyNotFound (resolveDatabase cfg database))) := by
  simp [setSecret, encrypt, getIdentity, hnone, marshalSecret]

theorem getSecret_set_cipher (cfg : Config) (w : World) (name database : String)
    (identity : Nat) (s : Secret)
    (hres : resolveDatabase cfg database = database)
    (hkey : lookupA w.keyring (keyName database) = some identity) :
    getSecret cfg
      (storageSet w database name
        (Blob.cipher (recipientOf identity) (Plaintext.secretJson s)))
      name database = .ok s := by
  simp [getSecret, hres, storageGet, storageSet, decrypt, getIdentity, hkey,
        unmarshalSecret]

theorem getSecret_storageSet_other (cfg : Config) (w : World)
    (name database otherDb key : String) (blob : Blob)
    (hne : resolveDatabase cfg database ≠ otherDb) :
    getSecret cfg (storageSet w otherDb key blob) name database
      = getSecret cfg w name database := by
  simp only [getSecret, storageGet, storageSet, decrypt, getIdentity,
    storageSet_keyring]
  rw [lookupA_setA_ne _ _ _ _ (Ne.symm hne)]

/-- Iterating the keys of an association list with pairwise-distinct keys and
looking each key back up visits exactly the list's entries. -/
theorem filterMap_lookupA {α β : Type} (g : α → Option β)
    (l : List (String × α)) (hnodup : (l.map Prod.fst).Nodup) :
    (l.map Prod.fst).filterMap (fun k => (lookupA l k).bind g)
      = l.filterMap (fun r => g r.2) := by
  induction l with
  | nil => rfl
  | cons p rest ih =>
    obtain ⟨k, v⟩ := p
    simp only [List.map_cons, List.nodup_cons] at hnodup
    obtain ⟨hk, hrest⟩ := hnodup
    have hhead : lookupA ((k, v) :: rest) k = some v := by simp [lookupA]
    have htail : (rest.map Prod.fst).filterMap
          (fun key => (lookupA ((k, v) :: rest) key).bind g)
        = (rest.map Prod.fst).filterMap (fun key => (lookupA rest key).bind g) := by
      apply List.filterMap_congr
      intro a ha
      have hne : k ≠ a := fun h => hk (h ▸ ha)
      simp [lookupA, hne]
    simp only [List.map_cons, List.filterMap_cons, hhead, Option.some_bind]
    rw [htail, ih hrest]

/-- Inside `ListSecrets`, the per-key `GetSecret` outcome is determined by the
blob the key binds in the database's records. -/
theorem getSecret_option_eq (cfg : Config) (w : World) (now : Nat)
    (key database : String) (records : List (String × Blob))
    (hres : resolveDatabase cfg database = database)
    (hdir : lookupA w.dirs database = some records) :
    (match getSecret cfg w key database with
      | .ok secret => some (toListItem secret now)
      | .error _ => none)
    = (lookupA records key).bind
        (fun b => (decryptsTo w database b).map (fun s => toListItem s now)) := by
  simp only [getSecret, hres, storageGet, hdir]
  cases lookupA records key with
  | none => rfl
  | some b =>
    simp only [Option.some_bind]
    cases hd : decrypt w b database with
    | error e => simp [decryptsTo, hd]
    | ok data =>
      cases data with
      | secretJson s => simp [decryptsTo, hd, unmarshalSecret]
      | junk n => simp [decryptsTo, hd, unmarshalSecret]

/-- Full specification of a successful `SetSecret` on a database whose key is
initialized: it returns no error, leaves the keyring untouched, makes
`GetSecret` of the same identifier return exactly the written secret, and
leaves every other database's records and secrets unchanged. -/
theorem setSecret_spec (cfg : Config) (w : World)
    (name value database note : String) (expiresAt : Option Nat) (now : Nat)
    (identity : Nat)
    (hkey : lookupA w.keyring (keyName (resolveDatabase cfg database)) = some identity) :
    ∃ w', setSecret cfg w name value database note expiresAt now = (w', none) ∧
      w'.keyring = w.keyring ∧
      getSecret cfg w' name database
        = .ok { name := name, value := value, note := note,
                createdAt := nextCreatedAt cfg w name (resolveDatabase cfg database) now,
                updatedAt := now, expiresAt := expiresAt } ∧
      (∀ db₂ key₂, resolveDatabase cfg db₂ ≠ resolveDatabase cfg database →
          getSecret cfg w' key₂ db₂ = getSecret cfg w key₂ db₂) ∧
      (∀ db₂, db₂ ≠ resolveDatabase cfg database →
          lookupA w'.dirs db₂ = lookupA w.dirs db₂) := by
  refine ⟨storageSet w (resolveDatabase cfg database) name
      (Blob.cipher (recipientOf identity)
        (Plaintext.secretJson
          { name := name, value := value, note := note,
            createdAt := nextCreatedAt cfg w name (resolveDatabase cfg database) now,
            updatedAt := now, expiresAt := expiresAt })),
    setSecret_ok cfg w name value database note expiresAt now identity hkey,
    rfl, ?_, ?_, ?_⟩
  · rw [← getSecret_resolve cfg _ name database]
    exact getSecret_set_cipher cfg w name (resolveDatabase cfg database) identity _
      (resolveDatabase_idem cfg database) hkey
  · intro db₂ key₂ hne
    exact getSecret_storageSet_other cfg w key₂ db₂ (resolveDatabase cfg database)
      name _ hne
  · intro db₂ hne
    exact lookupA_setA_ne w.dirs (resolveDatabase cfg database) db₂ _ (Ne.symm hne)

/-- Claim C1: on a database whose encryption key has been initialized,
`SetSecret(name, value, database, note, expiresAt)` succeeds and a subsequent
`GetSecret(name, database)` returns a secret whose value, note and expiry are
identical to the ones passed to `SetSecret`. -/
theorem setSecret_then_getSecret_roundtrip (cfg : Config) (w : World)
    (name value database note : String) (expiresAt : Option Nat) (now : Nat)
    (identity : Nat)
    (hkey : lookupA w.keyring (keyName (resolveDatabase cfg database)) = some identity) :
    (setSecret cfg w name value database note expiresAt now).2 = none ∧
    ∃ s, getSecret cfg (setSecret cfg w name value database note expiresAt now).1
          name database = .ok s ∧
      s.value = value ∧ s.note = note ∧ s.expiresAt = expiresAt := by
  obtain ⟨w', hset, -, hget, -, -⟩ :=
    setSecret_spec cfg w name value database note expiresAt now identity hkey
  rw [hset]
  exact ⟨rfl, _, hget, rfl, rfl, rfl⟩

/-- Witness for C1 at a concrete input. -/
theorem setSecret_then_getSecret_roundtrip_witness :
    (setSecret ⟨"", "", 0, false⟩ ⟨[("db-key-prod", 7)], []⟩
        "stripe-key" "sk_live_123" "prod" "prod note" (some 99) 5).2 = none ∧
    ∃ s, getSecret ⟨"", "", 0, false⟩
          (setSecret ⟨"", "", 0, false⟩ ⟨[("db-key-prod", 7)], []⟩
            "stripe-key" "sk_live_123" "prod" "prod note" (some 99) 5).1
          "stripe-key" "prod" = .ok s ∧
      s.value = "sk_live_123" ∧ s.note = "prod note" ∧ s.expiresAt = some 99 :=
  setSecret_then_getSecret_roundtrip ⟨"", "", 0, false⟩ ⟨[("db-key-prod", 7)], []⟩
    "stripe-key" "sk_live_123" "prod" "prod note" (some 99) 5 7 rfl

/-- Claim C4 counterexample: `GetSecret` against a never-initialized database
(no key, no directory) returns `DatabaseNotFound`, which is a different error
from `KeyNotFound` — the claim as stated is false. -/
theorem getSecret_never_initialized_cx :
    getSecret ⟨"", "", 0, false⟩ ⟨[], []⟩ "x" "db"
        = .error (.databaseNotFound "db") ∧
    (Except.error (SecretsError.databaseNotFound "db") : Except SecretsError Secret)
        ≠ Except.error (SecretsError.keyNotFound "db") := by
  refine ⟨rfl, ?_⟩
  intro h
  injection h with h'
  exact SecretsError.noConfusion h'

/-- Claim C4 (amended): `GetSecret` against a database whose directory does
not exist fails with `DatabaseNotFound` for every name — the storage open is
attempted before any key lookup, so `KeyNotFound` is never the reported
error for a never-initialized database. -/
theorem getSecret_missing_directory (cfg : Config) (w : World)
    (name database : String)
    (hdir : lookupA w.dirs (resolveDatabase cfg database) = none) :
    getSecret cfg w name database
      = .error (.databaseNotFound (resolveDatabase cfg database)) := by
  simp [getSecret, storageGet, hdir]

/-- Witness for the amended C4 at a concrete input. -/
theorem getSecret_missing_directory_witness :
    getSecret ⟨"", "", 0, false⟩ ⟨[], []⟩ "stripe-key" "prod"
      = .error (.databaseNotFound (resolveDatabase ⟨"", "", 0, false⟩ "prod")) :=
  getSecret_missing_directory ⟨"", "", 0, false⟩ ⟨[], []⟩ "stripe-key" "prod" rfl

/-- Claim C5: `SetSecret` serializes and encrypts before its single store
write, so whenever it returns an error the external state — in particular the
stored record for the (database, name), and any previously stored value — is
exactly what it was before the call. -/
theorem setSecret_error_leaves_state_unchanged (cfg : Config) (w : World)
    (name value database note : String) (expiresAt : Option Nat) (now : Nat)
    (e : SecretsError)
    (herr : (setSecret cfg w name value database note expiresAt now).2 = some e) :
    (setSecret cfg w name value database note expiresAt now).1 = w := by
  cases hk : lookupA w.keyring (keyName (resolveDatabase cfg database)) with
  | none => rw [setSecret_err cfg w name value database note expiresAt now hk]
  | some identity =>
    rw [setSecret_ok cfg w name value database note expiresAt now identity hk] at herr
    simp at herr

/-- Witness for C5 at a concrete input: encryption fails (no key), the state
is returned unchanged. -/
theorem setSecret_error_leaves_state_unchanged_witness :
    (setSecret ⟨"", "", 0, false⟩ ⟨[], [("db", [("n", Blob.garbage 0)])]⟩
        "n" "v2" "db" "" none 3).2 = some (SecretsError.keyNotFound "db") ∧
    (setSecret ⟨"", "", 0, false⟩ ⟨[], [("db", [("n", Blob.garbage 0)])]⟩
        "n" "v2" "db" "" none 3).1 = ⟨[], [("db", [("n", Blob.garbage 0)])]⟩ :=
  ⟨rfl, setSecret_error_leaves_state_unchanged ⟨"", "", 0, false⟩
    ⟨[], [("db", [("n", Blob.garbage 0)])]⟩ "n" "v2" "db" "" none 3
    (SecretsError.keyNotFound "db") rfl⟩

/-- Claim C10: a call with an empty-string database argument acts on the
database named by the configuration's `DefaultDatabase` field when that field
is non-empty, and otherwise on the literal name "default" — for `SetSecret`,
`GetSecret`, `ListSecrets` and `DeleteSecret` alike. -/
theorem empty_database_uses_default (cfg : Config) (w : World)
    (name value note : String) (expiresAt : Option Nat) (now : Nat) :
    cfg.getDefaultDatabase
        = (if cfg.defaultDatabase ≠ "" then cfg.defaultDatabase else "default") ∧
    setSecret cfg w name value "" note expiresAt now
        = setSecret cfg w name value cfg.getDefaultDatabase note expiresAt now ∧
    getSecret cfg w name "" = getSecret cfg w name cfg.getDefaultDatabase ∧
    listSecrets cfg w "" now = listSecrets cfg w cfg.getDefaultDatabase now ∧
    deleteSecret cfg w name "" = deleteSecret cfg w name cfg.getDefaultDatabase := by
  have hre : resolveDatabase cfg "" = cfg.getDefaultDatabase := rfl
  refine ⟨rfl, ?_, ?_, ?_, ?_⟩
  · rw [← setSecret_resolve cfg w name value "" note expiresAt now, hre]
  · rw [← getSecret_resolve cfg w name "", hre]
  · rw [← listSecrets_resolve cfg w "" now, hre]
  · rw [← deleteSecret_resolve cfg w name "", hre]

/-- Claim C2: if `SetSecret(name, v1)` completes at time t1 creating the
secret and `SetSecret(name, v2)` completes at a later time t2, a subsequent
`GetSecret(name)` returns `createdAt = t1`, `updatedAt = t2` and `value = v2`:
`createdAt` is immutable across successive writes while `updatedAt` advances. -/
theorem setSecret_preserves_createdAt (cfg : Config) (w : World)
    (name v1 v2 database note1 note2 : String) (e1 e2 : Option Nat)
    (t1 t2 : Nat) (identity : Nat) (err : SecretsError)
    (hkey : lookupA w.keyring (keyName (resolveDatabase cfg database)) = some identity)
    (hnew : getSecret cfg w name database = .error err)
    (_ht : t1 < t2) :
    ∃ s, getSecret cfg
        (setSecret cfg (setSecret cfg w name v1 database note1 e1 t1).1
            name v2 database note2 e2 t2).1 name database = .ok s ∧
      s.createdAt = t1 ∧ s.updatedAt = t2 ∧ s.value = v2 := by
  obtain ⟨w1, hset1, hk1, hget1, -, -⟩ :=
    setSecret_spec cfg w name v1 database note1 e1 t1 identity hkey
  have hc1 : nextCreatedAt cfg w name (resolveDatabase cfg database) t1 = t1 := by
    unfold nextCreatedAt
    rw [getSecret_resolve, hnew]
  rw [hc1] at hget1
  have hkey1 : lookupA w1.keyring (keyName (resolveDatabase cfg database)) = some identity := by
    rw [hk1]; exact hkey
  obtain ⟨w2, hset2, -, hget2, -, -⟩ :=
    setSecret_spec cfg w1 name v2 database note2 e2 t2 identity hkey1
  have hc2 : nextCreatedAt cfg w1 name (resolveDatabase cfg database) t2 = t1 := by
    unfold nextCreatedAt
    rw [getSecret_resolve, hget1]
  rw [hc2] at hget2
  simp only [hset1, hset2]
  exact ⟨_, hget2, rfl, rfl, rfl⟩

/-- Witness for C2 at a concrete input. -/
theorem setSecret_preserves_createdAt_witness :
    ∃ s, getSecret ⟨"", "", 0, false⟩
        (setSecret ⟨"", "", 0, false⟩
          (setSecret ⟨"", "", 0, false⟩ ⟨[("db-key-d", 3)], []⟩
            "n" "a" "d" "" none 1).1
          "n" "b" "d" "" none 2).1 "n" "d" = .ok s ∧
      s.createdAt = 1 ∧ s.updatedAt = 2 ∧ s.value = "b" :=
  setSecret_preserves_createdAt ⟨"", "", 0, false⟩ ⟨[("db-key-d", 3)], []⟩
    "n" "a" "b" "d" "" "" none none 1 2 3 (SecretsError.databaseNotFound "d")
    rfl rfl (by decide)

/-- Claim C3 counterexample: with a key already stored for "default" and a
secret encrypted under it, calling `InitDatabase` again succeeds (it does not
fail with a key-already-exists error), replaces the stored key, and the
previously stored secret is no longer decryptable. -/
theorem initializeKey_silently_overwrites_cx :
    (initDatabase
        ⟨[("db-key-default", 1)],
         [("default", [("n", Blob.cipher 1 (Plaintext.secretJson
            ⟨"n", "v", "", 0, 0, none⟩))])]⟩ "default" 2).2 = none ∧
    lookupA (initDatabase
        ⟨[("db-key-default", 1)],
         [("default", [("n", Blob.cipher 1 (Plaintext.secretJson
            ⟨"n", "v", "", 0, 0, none⟩))])]⟩ "default" 2).1.keyring
      "db-key-default" = some 2 ∧
    getSecret ⟨"", "", 0, false⟩
        (initDatabase
          ⟨[("db-key-default", 1)],
           [("default", [("n", Blob.cipher 1 (Plaintext.secretJson
              ⟨"n", "v", "", 0, 0, none⟩))])]⟩ "default" 2).1 "n" "default"
      = .error (.decryptionError "default") :=
  ⟨rfl, rfl, rfl⟩

/-- Claim C3 (amended): the refusal to clobber an existing key lives in the
CLI `secrets init` command, not in `InitDatabase`/`InitializeKey`: when a key
already exists for the default database, the command refuses (with no
override flag at all), leaves the external state — keyring and stored
secrets — completely unchanged, so every previously stored secret remains
decryptable under the original key. -/
theorem cliInitSecrets_refuses_existing_key (cfg : Config) (w : World)
    (newIdentity : Nat)
    (hkey : hasDatabaseKey w cfg.getDefaultDatabase = true) :
    cliInitSecrets cfg w newIdentity = (w, InitOutcome.refusedExistingKey) ∧
    ∀ name database,
      getSecret cfg (cliInitSecrets cfg w newIdentity).1 name database
        = getSecret cfg w name database := by
  have h : cliInitSecrets cfg w newIdentity = (w, InitOutcome.refusedExistingKey) := by
    simp [cliInitSecrets, hkey]
  exact ⟨h, fun name database => by rw [h]⟩

/-- Witness for the amended C3 at a concrete input. -/
theorem cliInitSecrets_refuses_existing_key_witness :
    hasDatabaseKey ⟨[("db-key-default", 1)], []⟩
        (Config.getDefaultDatabase ⟨"", "", 0, false⟩) = true ∧
    cliInitSecrets ⟨"", "", 0, false⟩ ⟨[("db-key-default", 1)], []⟩ 2
        = (⟨[("db-key-default", 1)], []⟩, InitOutcome.refusedExistingKey) :=
  ⟨rfl, (cliInitSecrets_refuses_existing_key ⟨"", "", 0, false⟩
    ⟨[("db-key-default", 1)], []⟩ 2 rfl).1⟩

/-- Claim C6: on a database whose stored records are any mix of valid entries
and corrupted ones, `ListSecrets` succeeds and returns exactly the items of
the records that decrypt and unmarshal successfully, silently skipping every
corrupted entry instead of returning an error. -/
theorem listSecrets_skips_corrupted (cfg : Config) (w : World)
    (database : String) (now : Nat) (records : List (String × Blob))
    (hdir : lookupA w.dirs (resolveDatabase cfg database) = some records)
    (hnodup : (records.map Prod.fst).Nodup) :
    listSecrets cfg w database now
      = .ok (records.filterMap (fun r =>
          (decryptsTo w (resolveDatabase cfg database) r.2).map
            (fun s => toListItem s now))) := by
  simp only [listSecrets, storageList, hdir]
  congr 1
  have hpoint : ∀ k ∈ records.map Prod.fst,
      (match getSecret cfg w k (resolveDatabase cfg database) with
        | .ok secret => some (toListItem secret now)
        | .error _ => none)
      = (lookupA records k).bind
          (fun b => (decryptsTo w (resolveDatabase cfg database) b).map
            (fun s => toListItem s now)) := fun k _ =>
    getSecret_option_eq cfg w now k (resolveDatabase cfg database) records
      (resolveDatabase_idem cfg database) hdir
  rw [List.filterMap_congr hpoint,
    filterMap_lookupA
      (fun b => (decryptsTo w (resolveDatabase cfg database) b).map
        (fun s => toListItem s now)) records hnodup]

/-- Witness for C6 at a concrete input: one valid record among a corrupted
blob, a foreign-key ciphertext and a non-deserializable payload. -/
theorem listSecrets_skips_corrupted_witness :
    listSecrets ⟨"", "", 0, false⟩
        ⟨[("db-key-d", 5)],
         [("d", [("a", Blob.cipher 5 (Plaintext.secretJson
                    ⟨"a", "va", "", 0, 0, none⟩)),
                 ("b", Blob.garbage 9),
                 ("c", Blob.cipher 6 (Plaintext.secretJson
                    ⟨"c", "vc", "", 0, 0, none⟩)),
                 ("e", Blob.cipher 5 (Plaintext.junk 3))])]⟩ "d" 10
      = .ok [⟨"a", "", 0, 0, none, false⟩] := by
  rw [listSecrets_skips_corrupted ⟨"", "", 0, false⟩
      ⟨[("db-key-d", 5)],
       [("d", [("a", Blob.cipher 5 (Plaintext.secretJson
                  ⟨"a", "va", "", 0, 0, none⟩)),
               ("b", Blob.garbage 9),
               ("c", Blob.cipher 6 (Plaintext.secretJson
                  ⟨"c", "vc", "", 0, 0, none⟩)),
               ("e", Blob.cipher 5 (Plaintext.junk 3))])]⟩ "d" 10
      [("a", Blob.cipher 5 (Plaintext.secretJson ⟨"a", "va", "", 0, 0, none⟩)),
       ("b", Blob.garbage 9),
       ("c", Blob.cipher 6 (Plaintext.secretJson ⟨"c", "vc", "", 0, 0, none⟩)),
       ("e", Blob.cipher 5 (Plaintext.junk 3))] rfl (by decide)]
  rfl

/-- Claim C7: writes to two databases with distinct resolved names are
independent: after `SetSecret(k, a, dbX)` then `SetSecret(k, b, dbY)`, both
succeed, `GetSecret(k, dbX)` returns value a and `GetSecret(k, dbY)` returns
value b (the reverse write order is this statement with the two databases
swapped). -/
theorem databases_isolated (cfg : Config) (w : World)
    (name a b dbX dbY noteX noteY : String) (eX eY : Option Nat)
    (tX tY : Nat) (identX identY : Nat)
    (hne : resolveDatabase cfg dbX ≠ resolveDatabase cfg dbY)
    (hkX : lookupA w.keyring (keyName (resolveDatabase cfg dbX)) = some identX)
    (hkY : lookupA w.keyring (keyName (resolveDatabase cfg dbY)) = some identY) :
    (setSecret cfg w name a dbX noteX eX tX).2 = none ∧
    (setSecret cfg (setSecret cfg w name a dbX noteX eX tX).1
        name b dbY noteY eY tY).2 = none ∧
    ∃ sX sY,
      getSecret cfg (setSecret cfg (setSecret cfg w name a dbX noteX eX tX).1
          name b dbY noteY eY tY).1 name dbX = .ok sX ∧ sX.value = a ∧
      getSecret cfg (setSecret cfg (setSecret cfg w name a dbX noteX eX tX).1
          name b dbY noteY eY tY).1 name dbY = .ok sY ∧ sY.value = b := by
  obtain ⟨w1, hset1, hk1, hget1, -, -⟩ :=
    setSecret_spec cfg w name a dbX noteX eX tX identX hkX
  have hkY1 : lookupA w1.keyring (keyName (resolveDatabase cfg dbY)) = some identY := by
    rw [hk1]; exact hkY
  obtain ⟨w2, hset2, -, hget2, hframe2, -⟩ :=
    setSecret_spec cfg w1 name b dbY noteY eY tY identY hkY1
  simp only [hset1, hset2]
  refine ⟨trivial, trivial,
    { name := name, value := a, note := noteX,
      createdAt := nextCreatedAt cfg w name (resolveDatabase cfg dbX) tX,
      updatedAt := tX, expiresAt := eX }, _, ?_, rfl, hget2, rfl⟩
  rw [hframe2 dbX name hne]
  exact hget1

/-- Witness for C7 at a concrete input. -/
theorem databases_isolated_witness :
    (setSecret ⟨"", "", 0, false⟩ ⟨[("db-key-x", 1), ("db-key-y", 2)], []⟩
        "k" "a" "x" "" none 0).2 = none ∧
    (setSecret ⟨"", "", 0, false⟩
        (setSecret ⟨"", "", 0, false⟩ ⟨[("db-key-x", 1), ("db-key-y", 2)], []⟩
          "k" "a" "x" "" none 0).1 "k" "b" "y" "" none 0).2 = none ∧
    ∃ sX sY,
      getSecret ⟨"", "", 0, false⟩
          (setSecret ⟨"", "", 0, false⟩
            (setSecret ⟨"", "", 0, false⟩ ⟨[("db-key-x", 1), ("db-key-y", 2)], []⟩
              "k" "a" "x" "" none 0).1 "k" "b" "y" "" none 0).1
          "k" "x" = .ok sX ∧ sX.value = "a" ∧
      getSecret ⟨"", "", 0, false⟩
          (setSecret ⟨"", "", 0, false⟩
            (setSecret ⟨"", "", 0, false⟩ ⟨[("db-key-x", 1), ("db-key-y", 2)], []⟩
              "k" "a" "x" "" none 0).1 "k" "b" "y" "" none 0).1
          "k" "y" = .ok sY ∧ sY.value = "b" :=
  databases_isolated ⟨"", "", 0, false⟩ ⟨[("db-key-x", 1), ("db-key-y", 2)], []⟩
    "k" "a" "b" "x" "y" "" "" none none 0 0 1 2 (by decide) rfl rfl

/-- Claim C8: `DeleteDatabase(database)` removes only that database's
directory: it succeeds, the keyring (credential-store) entries are left
completely unchanged, the database no longer appears in `ListDatabases`,
reads against it fail with `DatabaseNotFound`, and every other database's
directory contents are untouched. -/
theorem deleteDatabase_removes_only_directory (cfg : Config) (w : World)
    (database name other : String) (hdb : database ≠ "")
    (hother : other ≠ database) :
    (deleteDatabase w database).2 = none ∧
    (deleteDatabase w database).1.keyring = w.keyring ∧
    database ∉ listDatabases (deleteDatabase w database).1 ∧
    getSecret cfg (deleteDatabase w database).1 name database
        = .error (.databaseNotFound database) ∧
    lookupA (deleteDatabase w database).1.dirs other = lookupA w.dirs other := by
  refine ⟨rfl, rfl, ?_, ?_, ?_⟩
  · intro hmem
    simp only [listDatabases, storageListDatabases, deleteDatabase,
      storageDeleteDatabase] at hmem
    exact not_mem_map_fst_removeA w.dirs database (List.mem_of_mem_filter hmem)
  · have hres := resolveDatabase_of_ne cfg database hdb
    simp [getSecret, storageGet, hres, deleteDatabase, storageDeleteDatabase]
  · exact lookupA_removeA_ne w.dirs database other (Ne.symm hother)

/-- Witness for C8 at a concrete input. -/
theorem deleteDatabase_removes_only_directory_witness :
    (deleteDatabase ⟨[("db-key-d", 1)], [("d", []), ("e", [("k", Blob.garbage 0)])]⟩
        "d").2 = none ∧
    (deleteDatabase ⟨[("db-key-d", 1)], [("d", []), ("e", [("k", Blob.garbage 0)])]⟩
        "d").1.keyring = [("db-key-d", 1)] ∧
    "d" ∉ listDatabases (deleteDatabase
        ⟨[("db-key-d", 1)], [("d", []), ("e", [("k", Blob.garbage 0)])]⟩ "d").1 ∧
    getSecret ⟨"", "", 0, false⟩
        (deleteDatabase ⟨[("db-key-d", 1)], [("d", []), ("e", [("k", Blob.garbage 0)])]⟩
          "d").1 "n" "d" = .error (.databaseNotFound "d") ∧
    lookupA (deleteDatabase
        ⟨[("db-key-d", 1)], [("d", []), ("e", [("k", Blob.garbage 0)])]⟩ "d").1.dirs
      "e" = lookupA [("d", []), ("e", [("k", Blob.garbage 0)])] "e" :=
  deleteDatabase_removes_only_directory ⟨"", "", 0, false⟩
    ⟨[("db-key-d", 1)], [("d", []), ("e", [("k", Blob.garbage 0)])]⟩
    "d" "n" "e" (by decide) (by decide)

/-- Claim C9 counterexample: for the hidden database name ".h" (a dot-prefixed
directory), `DeleteSecret` succeeds and creates the directory, yet ".h" does
not subsequently appear in `ListDatabases`, because `ListDatabases` filters
out names starting with "." — so the claim as stated, quantified over every
database name, is false. -/
theorem deleteSecret_hidden_database_cx :
    (deleteSecret ⟨"", "", 0, false⟩ ⟨[], []⟩ "n" ".h").2 = none ∧
    lookupA (deleteSecret ⟨"", "", 0, false⟩ ⟨[], []⟩ "n" ".h").1.dirs ".h"
        = some [] ∧
    ".h" ∉ listDatabases (deleteSecret ⟨"", "", 0, false⟩ ⟨[], []⟩ "n" ".h").1 := by
  refine ⟨rfl, rfl, ?_⟩
  decide

/-- Claim C9 (amended): for every non-empty database name D that does not
start with ".", if D's directory does not exist then `DeleteSecret(name, D)`
returns success (not `DatabaseNotFound`) for every name, and as a side effect
creates D's (empty) directory, so that D subsequently appears in
`ListDatabases()` — deletion opens the store in write mode, which
auto-creates the database. -/
theorem deleteSecret_creates_database (cfg : Config) (w : World)
    (name database : String) (hne : database ≠ "")
    (hdot : hasPrefixDot database = false)
    (habsent : lookupA w.dirs database = none) :
    (deleteSecret cfg w name database).2 = none ∧
    lookupA (deleteSecret cfg w name database).1.dirs database = some [] ∧
    database ∈ listDatabases (deleteSecret cfg w name database).1 := by
  have hres := resolveDatabase_of_ne cfg database hne
  refine ⟨rfl, ?_, ?_⟩
  · simp [deleteSecret, hres, storageDelete, habsent, removeA]
  · simp only [deleteSecret, hres, storageDelete, listDatabases,
      storageListDatabases]
    refine List.mem_filter.mpr ⟨?_, ?_⟩
    · exact mem_map_fst_setA w.dirs database _
    · simp [hdot]

/-- Witness for the amended C9 at a concrete input. -/
theorem deleteSecret_creates_database_witness :
    (deleteSecret ⟨"", "", 0, false⟩ ⟨[], [("other", [])]⟩ "n" "newdb").2 = none ∧
    lookupA (deleteSecret ⟨"", "", 0, false⟩ ⟨[], [("other", [])]⟩ "n" "newdb").1.dirs
        "newdb" = some [] ∧
    "newdb" ∈ listDatabases
        (deleteSecret ⟨"", "", 0, false⟩ ⟨[], [("other", [])]⟩ "n" "newdb").1 :=
  deleteSecret_creates_database ⟨"", "", 0, false⟩ ⟨[], [("other", [])]⟩
    "n" "newdb" (by decide) (by decide) rfl

end Indietool
